import Mathlib

/-!
Verification of the `idxs` Index Supply client core.

Shallow embedding of the resilient query-execution engine in
`src/IndexSupply.ts` and `src/internal/result.ts`:

* cursor serialization and the request builders of `fetch` and `live`;
* the retry policy `shouldRetry`;
* the SSE frame decoder `readStream`, modelled at the byte level with an
  incremental UTF-8 grouping stage standing for `TextDecoder('utf-8')`
  in `{stream: true}` mode;
* the zod-based row normalizer `Result.parse` with its fixed schema table,
  signature-derived decode rules and per-column table resolution;
* the retry loops of `fetch` and `live` as interpreters over an explicit
  script of environment (network) behaviours.

JavaScript strings are modelled as `List Char` (or lists of UTF-8 byte
groups for the byte-level decoder); JSON numbers as integers (the API
only delivers integral numbers; float semantics are out of scope);
JavaScript objects used as string-keyed records as association lists with
insert-or-update-in-place semantics, which reproduces property insertion
order for non-numeric keys.
-/

namespace Idxs

/-! ## Cursors (`IndexSupply.ts` type `Cursor`) -/

/-- A `Cursor`: an opaque string, or `{ chainId, blockNumber }`
(`blockNumber` is `number | bigint`; both serialize the same way). -/
inductive Cursor
  | str (s : String)
  | obj (chainId : Int) (blockNumber : Int)
deriving DecidableEq, Repr

/-- Cursor serialization: the string itself, or `chainId`-`blockNumber`. -/
def serializeCursor : Cursor → String
  | .str s => s
  | .obj c b => s!"{c}-{b}"

/-- JavaScript truthiness of a `Cursor` value: the empty string is falsy,
every other string and every object is truthy. -/
def cursorTruthy : Cursor → Bool
  | .str s => s ≠ ""
  | .obj _ _ => true

/-- The `cursor` field of the `fetch` request body:
`if (cursor !== undefined) requestBody.cursor = ...` — present whenever a
cursor was supplied at all. -/
def fetchCursorField (cursor : Option Cursor) : Option String :=
  cursor.map serializeCursor

/-- The `cursor` query-string parameter of a `live` request:
`if (cursor) params.set('cursor', ...)` — present only when the supplied
cursor is truthy. -/
def liveCursorParam (cursor : Option Cursor) : Option String :=
  match cursor with
  | none => none
  | some c => if cursorTruthy c then some (serializeCursor c) else none

/-! ## The SSE frame decoder (`readStream`)

`readStream` feeds each received byte chunk through
`TextDecoder('utf-8').decode(value, {stream: true})`, appends the decoded
text to a string buffer, and repeatedly flushes the buffer up to the next
`"\n\n"`: each flushed block is split on `'\n'` and every line starting
with `data:` yields `JSON.parse(line.slice(5).trim())`.

We model a decoded JavaScript character as its UTF-8 byte group
(`G := List Nat`); a decoded string is a list of groups (`Str`).  The
incremental `TextDecoder` is modelled by `utf8Push`, which consumes the
chunk byte by byte, emitting each complete byte group (using the length
announced by the lead byte) and retaining a trailing incomplete group as
carry-over state —
exactly the stream-mode behaviour on well-formed UTF-8 input.  (BOM
stripping and U+FFFD substitution on malformed input are outside the
model; both are equally stateful and do not affect chunk-boundary
insensitivity.)  The decoder yields the payload *strings*; the
`JSON.parse` applied to each of them downstream is a pure per-string
function, so equal string sequences decode to equal JSON value
sequences and fail at the same points. -/

/-- A UTF-8 byte group standing for one decoded character. -/
abbrev G := List Nat

/-- A decoded JavaScript string, as a list of byte groups. -/
abbrev Str := List G

/-- Number of bytes of the UTF-8 sequence announced by a lead byte
(continuation and invalid lead bytes count as single-byte groups;
irrelevant on well-formed input, where they never start a group). -/
def needBytes (b : Nat) : Nat :=
  if b < 0xC0 then 1 else if b < 0xE0 then 2 else if b < 0xF0 then 3 else 4

/-- One byte of incremental UTF-8 decoding: append the byte to the
pending bytes; when the pending bytes reach the length announced by
their lead byte, emit them as one complete character group. -/
def utf8Step (acc : List G × List Nat) (b : Nat) : List G × List Nat :=
  let p := acc.2 ++ [b]
  if p.length = needBytes (p.headD 0) then (acc.1 ++ [p], []) else (acc.1, p)

/-- Model of `TextDecoder.decode(chunk, {stream: true})` from carry-over state
`pend`: the emitted character groups and the new carry-over. -/
def utf8Push (pend : List Nat) (chunk : List Nat) : List G × List Nat :=
  chunk.foldl utf8Step ([], pend)

/-! ### The frame layer: flushing complete `"\n\n"`-terminated blocks -/

/-- The newline character `'\n'` as a byte group. -/
def nlG : G := [10]

/-- Index of the first occurrence of the frame separator `"\n\n"`
(`buffer.indexOf('\n\n')`). -/
def findSep : Str → Option Nat
  | g1 :: g2 :: rest =>
    if g1 = nlG ∧ g2 = nlG then some 0
    else (findSep (g2 :: rest)).map (· + 1)
  | _ => none

theorem findSep_le (s : Str) (i : Nat) (h : findSep s = some i) :
    i + 2 ≤ s.length := by
  induction s generalizing i with
  | nil => simp [findSep] at h
  | cons g1 rest ih =>
    match rest with
    | [] => simp [findSep] at h
    | g2 :: rest' =>
      rw [findSep] at h
      split at h
      · cases h
        simp
      · simp only [Option.map_eq_some'] at h
        obtain ⟨j, hj, rfl⟩ := h
        have := ih j hj
        simp at this ⊢
        omega

/-- Whitespace characters removed by `String.prototype.trim` (the ASCII
white space characters, NBSP and the BOM; exotic Unicode spaces are not
produced by this protocol). -/
def isWsG (g : G) : Bool :=
  g = [9] || g = [10] || g = [11] || g = [12] || g = [13] || g = [32] ||
    g = [0xC2, 0xA0] || g = [0xEF, 0xBB, 0xBF]

/-- Model of `line.trim()`. -/
def trimStr (l : Str) : Str :=
  ((l.dropWhile isWsG).reverse.dropWhile isWsG).reverse

/-- Model of `block.split('\n')`. -/
def splitNl : Str → List Str
  | [] => [[]]
  | g :: rest =>
    if g = nlG then [] :: splitNl rest
    else
      match splitNl rest with
      | l :: ls => (g :: l) :: ls
      | [] => [[g]]

/-- The string `"data:"` as byte groups. -/
def dataPrefix : Str := [[100], [97], [116], [97], [58]]

/-- The data payloads of one complete block: for every line starting with
`data:`, the line with the prefix stripped and trimmed
(`line.slice(5).trim()`). -/
def extractData (block : Str) : List Str :=
  (splitNl block).filterMap fun line =>
    if dataPrefix.isPrefixOf line then some (trimStr (line.drop 5)) else none

/-- The inner `while ((idx = buffer.indexOf('\n\n')) !== -1)` loop of
`readStream`: flush every complete frame of the buffer, returning the
extracted payload strings and the retained partial frame. -/
def processAll (s : Str) : List Str × Str :=
  match h : findSep s with
  | none => ([], s)
  | some i =>
    ((extractData (s.take i) ++ (processAll (s.drop (i + 2))).1),
      (processAll (s.drop (i + 2))).2)
termination_by s.length
decreasing_by
  have := findSep_le s i h
  simp only [List.length_drop]
  cases s with
  | nil => simp at this
  | cons a l => simp at this ⊢; omega

/-! ### The full pipeline -/

/-- The decoder's state between chunks: the `TextDecoder`'s pending bytes
and the retained partial frame. -/
structure SseState where
  pend : List Nat
  buf : Str
deriving DecidableEq, Repr

/-- One iteration of `readStream`'s outer read loop on a received byte
chunk: incremental UTF-8 decode, append to the buffer, flush complete
frames. -/
def sseFeed (st : SseState) (chunk : List Nat) : List Str × SseState :=
  ((processAll (st.buf ++ (utf8Push st.pend chunk).1)).1,
    ⟨(utf8Push st.pend chunk).2,
      (processAll (st.buf ++ (utf8Push st.pend chunk).1)).2⟩)

/-- Run the decoder over a whole sequence of byte chunks, concatenating
the yielded payload strings. -/
def sseRun (st : SseState) : List (List Nat) → List Str × SseState
  | [] => ([], st)
  | c :: cs =>
    ((sseFeed st c).1 ++ (sseRun (sseFeed st c).2 cs).1,
      (sseRun (sseFeed st c).2 cs).2)

/-! ## Errors and the retry policy (`shouldRetry`) -/

/-- The two classifications carried by `SseError.type`. -/
inductive SseType
  | client
  | server
deriving DecidableEq, Repr

/-- The error values that can reach `shouldRetry`:
`SseError` (stream protocol errors and SSE JSON decode failures),
`FetchRequestError` (non-2xx HTTP responses), `Errors.BaseError`
(generic errors such as "Response body is null"), the `AbortError`
produced by a cancelled `fetch`, and any other thrown `Error`
(network failures, zod decode errors, ...). -/
inductive JsError
  | sseError (type : SseType) (message : String)
  | fetchRequestError (status : Nat) (message : String)
  | baseError (message : String)
  | abortError
  | otherError (name message : String)
deriving DecidableEq, Repr

/-- The `shouldRetry` policy (`IndexSupply.ts`): retry iff the error is an
`SseError` of type `'server'`, or a `FetchRequestError` whose status is
408, 429 or `>= 500`. -/
def shouldRetry : JsError → Bool
  | .sseError t _ => t = .server
  | .fetchRequestError status _ => status = 408 || status = 429 || 500 ≤ status
  | _ => false

/-! ## The row normalizer (`internal/result.ts`, `Result.parse`)

Wire values delivered by `JSON.parse` and the values produced by
decoding.  JSON numbers are modelled as integers (the API only delivers
integral numbers), `bigint` values (which never occur on the wire but
are produced by decoding) are kept distinct from numbers, and `NaN`
(producible by the `Number(value)` transform) is a separate value. -/

inductive Prim
  | str (s : String)
  | num (n : Int)
  | bool (b : Bool)
  | big (n : Int)
  | null
  | undef
  | nanV
deriving DecidableEq, Repr

/-- A cell value: a scalar, or an array of scalars (arrays of this API —
`topics`, `bytes*[]`, `int*[]`/`uint*[]` columns — only ever hold
scalars, on the wire and after decoding). -/
inductive Value
  | prim (p : Prim)
  | arr (vs : List Prim)
deriving DecidableEq, Repr

/-- The non-array decode rules occurring in `result.ts` (each names the
zod schema it stands for). -/
inductive BaseRule
  | hexString      -- z.templateLiteral(['0x', z.string()])
  | boolCheck      -- z.boolean()
  | numberCheck    -- z.number()
  | bigintCheck    -- z.bigint()
  | stringCheck    -- z.string()
  | jsNumberOf     -- z.transform((value) => Number(value))
  | bigIntOf       -- z.transform((value) => BigInt(value))
  | timestampRule  -- the block_timestamp transform
deriving DecidableEq, Repr

/-- A decode rule: one of the base rules, or `z.array(...)` of a base
rule (arrays never nest in `result.ts`). -/
inductive Rule
  | base (r : BaseRule)
  | arrayOf (r : BaseRule)
deriving DecidableEq, Repr

/-- Effectful `List.map` over `Except`, aborting at the first error. -/
def exceptMap (f : α → Except ε β) : List α → Except ε (List β)
  | [] => .ok []
  | a :: as =>
    match f a with
    | .error e => .error e
    | .ok b =>
      match exceptMap f as with
      | .error e => .error e
      | .ok bs => .ok (b :: bs)

/-- JavaScript whitespace (the ASCII white space characters; exotic
Unicode spaces are not produced by this protocol). -/
def isSpaceChar (c : Char) : Bool :=
  c = ' ' || c = '\t' || c = '\n' || c = '\r' || c = '\x0b' || c = '\x0c'

/-- Trim leading and trailing whitespace from a character list. -/
def trimChars (cs : List Char) : List Char :=
  ((cs.dropWhile isSpaceChar).reverse.dropWhile isSpaceChar).reverse

/-- Decimal value of a digit string. -/
def digitsToNat (ds : List Char) : Nat :=
  ds.foldl (fun a c => a * 10 + (c.toNat - 48)) 0

/-- Parse an optionally signed decimal integer, as both `Number(...)`
and `BigInt(...)` do on integral decimal strings (hexadecimal and
floating-point literal forms are outside the model's scope). -/
def parseSignedDec : List Char → Option Int
  | [] => none
  | '-' :: rest =>
    if rest ≠ [] ∧ rest.all Char.isDigit then some (-(digitsToNat rest : Int)) else none
  | '+' :: rest =>
    if rest ≠ [] ∧ rest.all Char.isDigit then some (digitsToNat rest : Int) else none
  | cs =>
    if cs.all Char.isDigit then some (digitsToNat cs : Int) else none

/-- The JavaScript `Number(value)` coercion on scalars. -/
def jsNumber : Prim → Prim
  | .num n => .num n
  | .big n => .num n
  | .bool b => .num (if b then 1 else 0)
  | .null => .num 0
  | .undef => .nanV
  | .nanV => .nanV
  | .str s =>
    let cs := trimChars s.data
    if cs = [] then .num 0
    else
      match parseSignedDec cs with
      | some n => .num n
      | none => .nanV

/-- The JavaScript `BigInt(value)` coercion on scalars: throws on
non-integral strings and on `null` / `undefined` / `NaN`. -/
def bigIntCoerce : Prim → Except String Prim
  | .num n => .ok (.big n)
  | .big n => .ok (.big n)
  | .bool b => .ok (.big (if b then 1 else 0))
  | .str s =>
    let cs := trimChars s.data
    if cs = [] then .ok (.big 0)
    else
      match parseSignedDec cs with
      | some n => .ok (.big n)
      | none => .error "Cannot convert string to a BigInt"
  | _ => .error "Cannot convert value to a BigInt"

/-- Split a character list on a separator character (JavaScript
`String.prototype.split` with a single-character separator). -/
def splitOnChar (sep : Char) : List Char → List (List Char)
  | [] => [[]]
  | c :: rest =>
    if c = sep then [] :: splitOnChar sep rest
    else
      match splitOnChar sep rest with
      | l :: ls => (c :: l) :: ls
      | [] => [[c]]

/-- Gregorian leap year. -/
def isLeapYear (y : Nat) : Bool :=
  (y % 4 = 0 && y % 100 ≠ 0) || y % 400 = 0

/-- Number of days of month `m` (1-based) in year `y`. -/
def daysInMonth (y m : Nat) : Nat :=
  if m = 2 then (if isLeapYear y then 29 else 28)
  else if m = 4 || m = 6 || m = 9 || m = 11 then 30
  else 31

/-- Days from the Unix epoch to `y-m-d` (the standard civil-from-days
computation, matching `Date.parse` on ISO dates with UTC designator). -/
def daysFromCivil (y m d : Nat) : Int :=
  let y' : Int := if m ≤ 2 then (y : Int) - 1 else (y : Int)
  let era : Int := y' / 400
  let yoe : Int := y' - era * 400
  let mp : Int := if m > 2 then (m : Int) - 3 else (m : Int) + 9
  let doy : Int := (153 * mp + 2) / 5 + (d : Int) - 1
  let doe : Int := yoe * 365 + yoe / 4 - yoe / 100 + doy
  era * 146097 + doe - 719468

/-- Exactly-`n`-digit field. -/
def isDigits (n : Nat) (cs : List Char) : Bool :=
  cs.length = n && cs.all Char.isDigit

/-- The `block_timestamp` transform: split date and time on the first
space, discard the seconds fraction, left-pad the hour, and parse
`"<date>T<h>:<m>:<s>Z"` (`Date.parse` modelled for ISO
`YYYY-MM-DDTHH:MM:SSZ` input), returning UTC epoch seconds. -/
def parseTimestamp (s : String) : Except String Int :=
  match splitOnChar ' ' s.data with
  | [] => .error "Invalid timestamp format (missing time)"
  | [_] => .error "Invalid timestamp format (missing time)"
  | pgDate :: pgTime :: _ =>
    if pgTime = [] then .error "Invalid timestamp format (missing time)"
    else
      let time := ((splitOnChar '.' pgTime).headD [])
      if time = [] then .error "Invalid timestamp format (invalid time)"
      else
        match splitOnChar ':' time with
        | h :: m :: sec :: _ =>
          if h = [] ∨ m = [] ∨ sec = [] then .error "Invalid timestamp format (invalid time)"
          else
            let hp := if h.length = 1 then '0' :: h else h
            match splitOnChar '-' pgDate with
            | [ys, ms, ds] =>
              if isDigits 4 ys && isDigits 2 ms && isDigits 2 ds &&
                  isDigits 2 hp && isDigits 2 m && isDigits 2 sec then
                let y := digitsToNat ys
                let mo := digitsToNat ms
                let d := digitsToNat ds
                let hh := digitsToNat hp
                let mi := digitsToNat m
                let ss := digitsToNat sec
                if 1 ≤ mo && mo ≤ 12 && 1 ≤ d && d ≤ daysInMonth y mo &&
                    hh ≤ 23 && mi ≤ 59 && ss ≤ 59 then
                  .ok (daysFromCivil y mo d * 86400 + hh * 3600 + mi * 60 + ss)
                else .error "Invalid timestamp format (could not parse)"
              else .error "Invalid timestamp format (could not parse)"
            | _ => .error "Invalid timestamp format (could not parse)"
        | _ => .error "Invalid timestamp format (invalid time)"

/-- Apply a base decode rule to a scalar (`schema.parse(value)`). -/
def applyBase : BaseRule → Prim → Except String Prim
  | .hexString, .str s =>
    if s.data.take 2 = ['0', 'x'] then .ok (.str s) else .error "Invalid template literal"
  | .hexString, _ => .error "Invalid input: expected template literal"
  | .boolCheck, .bool b => .ok (.bool b)
  | .boolCheck, _ => .error "Invalid input: expected boolean"
  | .numberCheck, .num n => .ok (.num n)
  | .numberCheck, _ => .error "Invalid input: expected number"
  | .bigintCheck, .big n => .ok (.big n)
  | .bigintCheck, _ => .error "Invalid input: expected bigint"
  | .stringCheck, .str s => .ok (.str s)
  | .stringCheck, _ => .error "Invalid input: expected string"
  | .jsNumberOf, p => .ok (jsNumber p)
  | .bigIntOf, p => bigIntCoerce p
  | .timestampRule, .str s => (parseTimestamp s).map .num
  | .timestampRule, _ => .error "value.split is not a function"

/-- Behaviour of a base rule on an array value: the validating schemas
reject it, `Number(array)` is object coercion (modelled as `NaN`),
`BigInt(array)` and the timestamp transform throw. -/
def applyBaseToArr : BaseRule → Except String Value
  | .jsNumberOf => .ok (.prim .nanV)
  | .bigIntOf => .error "Cannot convert value to a BigInt"
  | .timestampRule => .error "value.split is not a function"
  | .hexString => .error "Invalid input: expected template literal"
  | .boolCheck => .error "Invalid input: expected boolean"
  | .numberCheck => .error "Invalid input: expected number"
  | .bigintCheck => .error "Invalid input: expected bigint"
  | .stringCheck => .error "Invalid input: expected string"

/-- Apply a decode rule to a value. -/
def applyRule : Rule → Value → Except String Value
  | .base r, .prim p => (applyBase r p).map .prim
  | .base r, .arr _ => applyBaseToArr r
  | .arrayOf r, .arr vs => (exceptMap (applyBase r) vs).map .arr
  | .arrayOf _, .prim _ => .error "Invalid input: expected array"

/-- Apply an optional rule: `if (!type) return value; return type.parse(value)`. -/
def decodeWithRule : Option Rule → Value → Except String Value
  | none, v => .ok v
  | some r, v => applyRule r v

/-- Association-list lookup (JavaScript object property read). -/
def lookupKV : List (String × α) → String → Option α
  | [], _ => none
  | (k', v) :: rest, k => if k' = k then some v else lookupKV rest k

/-- Association-list insert with update-in-place (JavaScript object
property write: an existing key keeps its position, a new key is
appended, reproducing property insertion order for string keys). -/
def insertKV : List (String × α) → String → α → List (String × α)
  | [], k, v => [(k, v)]
  | (k', v') :: rest, k, v =>
    if k' = k then (k', v) :: rest else (k', v') :: insertKV rest k v

/-- The fixed tables: `const standardTables = ['txs', 'logs', 'blocks']`. -/
def standardTables : List String := ["txs", "logs", "blocks"]

/-- The fixed schema type table `standardColumnTypes`, entry for entry
from `result.ts`. -/
def standardColumnTypes : List (String × Rule) :=
  [("address", .base .hexString),
   ("block_num", .base .bigIntOf),
   ("block_timestamp", .base .timestampRule),
   ("chain", .base .numberCheck),
   ("data", .base .hexString),
   ("extra_data", .base .hexString),
   ("from", .base .hexString),
   ("gas", .base .bigIntOf),
   ("gas_limit", .base .bigintCheck),
   ("gas_price", .base .bigIntOf),
   ("gas_used", .base .bigintCheck),
   ("hash", .base .hexString),
   ("idx", .base .numberCheck),
   ("input", .base .hexString),
   ("log_idx", .base .numberCheck),
   ("miner", .base .hexString),
   ("nonce", .base .bigIntOf),
   ("num", .base .bigintCheck),
   ("receipts_root", .base .hexString),
   ("size", .base .numberCheck),
   ("state_root", .base .hexString),
   ("timestamp", .base .numberCheck),
   ("to", .base .hexString),
   ("topics", .arrayOf .stringCheck),
   ("tx_hash", .base .hexString),
   ("type", .base .numberCheck),
   ("value", .base .bigIntOf)]

/-- The regex `/int(\d+)$/` applied to a declared ABI type: the digit suffix when
the type ends in `int` followed by one or more digits.  End-anchored, so
it never matches an array type such as `uint8[]`. -/
def matchIntSize (type : List Char) : Option (List Char) :=
  let r := type.reverse
  let ds := r.takeWhile Char.isDigit
  if ds = [] then none
  else if ['t', 'n', 'i'].isPrefixOf (r.dropWhile Char.isDigit) then some ds.reverse
  else none

/-- The per-input transform selection of `Result.parse` (the inner
closure over `input.type`): address, bool, `bytes*`, `int*`/`uint*`
(64-bit-safe number for declared width `≤ 48`, arbitrary-precision
integer otherwise), string fallback; array types wrap the chosen
element rule. -/
def signatureTransformL (type : List Char) : Rule :=
  if type = ['a', 'd', 'd', 'r', 'e', 's', 's'] then .base .hexString
  else if type = ['b', 'o', 'o', 'l'] then .base .boolCheck
  else if ['b', 'y', 't', 'e', 's'].isPrefixOf type then
    if type.contains '[' then .arrayOf .hexString else .base .hexString
  else if ['i', 'n', 't'].isPrefixOf type || ['u', 'i', 'n', 't'].isPrefixOf type then
    let inner : BaseRule :=
      match matchIntSize type with
      | some ds => if digitsToNat ds ≤ 48 then .jsNumberOf else .bigIntOf
      | none => .bigIntOf
    if type.contains '[' then .arrayOf inner else .base inner
  else .base .stringCheck

/-- Wrapper for `signatureTransformL` on a string. -/
def signatureTransform (type : String) : Rule :=
  signatureTransformL type.data

/-- One parsed ABI input (`{name, type}`); the model boundary for the
external `ox` ABI parser. -/
structure AbiInput where
  name : String
  type : String
deriving DecidableEq, Repr

/-- One parsed ABI item as produced by `AbiItem.from` (the external `ox`
parser, outside the model): a name (absent for unnamed items, which
`parse` skips) and its inputs. -/
structure AbiItemShape where
  name : Option String
  inputs : List AbiInput
deriving DecidableEq, Repr

/-- ASCII lower-casing (`String.prototype.toLowerCase` restricted to
ASCII identifiers). -/
def toLowerStr (s : String) : String :=
  String.mk (s.data.map Char.toLower)

/-- The `types` object built for one signature: an entry per named
input, keyed by input name (inputs with an empty — falsy — name are
skipped). -/
def buildInputTypes (inputs : List AbiInput) : List (String × Rule) :=
  inputs.foldl
    (fun types input =>
      if input.name = "" then types
      else insertKV types input.name (signatureTransformL input.type.data))
    []

/-- The `signatureTypes` object: a decode-rule table per signature, keyed by the
lower-cased item name (unnamed items are skipped). -/
def buildSignatureTypes (items : List AbiItemShape) : List (String × List (String × Rule)) :=
  items.foldl
    (fun acc item =>
      match item.name with
      | none => acc
      | some nm => insertKV acc (toLowerStr nm) (buildInputTypes item.inputs))
    []

/-- JavaScript `\w`: `[A-Za-z0-9_]`. -/
def isWordChar (c : Char) : Bool :=
  c.isAlpha || c.isDigit || c = '_'

/-- Case-insensitive prefix match (the regex `i` flag, ASCII). -/
def ciPrefix : List Char → List Char → Bool
  | [], _ => true
  | _ :: _, [] => false
  | a :: as, b :: bs => (a.toLower = b.toLower) && ciPrefix as bs

/-- Match the pattern `"?(\w+)"?\."?<name>"?(?:\s|,|$)` at the head of
`cs`, returning the captured table name.  The optional quotes and the
greedy word run are deterministic here because `"` and `.` are not word
characters; the interpolated column name is treated as a literal
(column names are assumed free of regex metacharacters). -/
def matchQualAt (name : List Char) (cs : List Char) : Option (List Char) :=
  let cs1 := match cs with | '"' :: r => r | _ => cs
  let w := cs1.takeWhile isWordChar
  if w = [] then none
  else
    let cs2 := cs1.drop w.length
    let cs3? : Option (List Char) :=
      match cs2 with
      | '"' :: '.' :: r => some r
      | '.' :: r => some r
      | _ => none
    match cs3? with
    | none => none
    | some cs3 =>
      let cs4 := match cs3 with | '"' :: r => r | _ => cs3
      if ciPrefix name cs4 then
        let cs5 := cs4.drop name.length
        let cs6 := match cs5 with | '"' :: r => r | _ => cs5
        match cs6 with
        | [] => some w
        | c :: _ => if isSpaceChar c || c = ',' then some w else none
      else none

/-- Leftmost match of the qualified-column pattern in the query text. -/
def findQual (name : List Char) : List Char → Option (List Char)
  | [] => none
  | c :: rest =>
    match matchQualAt name (c :: rest) with
    | some w => some w
    | none => findQual name rest

/-- Model of `getColumnTableName` (`result.ts`): scan the query for
`<table>.<column>` (optionally quoted on either side) and return the
captured table name, or `null`. -/
def getColumnTableName (name : String) (query : String) : Option String :=
  (findQual name.data query.data).map String.mk

/-- Leftmost match of `/\bfrom\s+(\w+)/` (on the already lower-cased
query), carrying whether the previous character was a word character
for the `\b` boundary. -/
def findFromTable : Bool → List Char → Option (List Char)
  | _, [] => none
  | prevWord, c :: rest =>
    if ¬prevWord ∧ ['f', 'r', 'o', 'm'].isPrefixOf (c :: rest) then
      let after := (c :: rest).drop 4
      let ws := after.takeWhile isSpaceChar
      if ws ≠ [] then
        let w := (after.drop ws.length).takeWhile isWordChar
        if w ≠ [] then some w else findFromTable (isWordChar c) rest
      else findFromTable (isWordChar c) rest
    else findFromTable (isWordChar c) rest

/-- Model of `extractTableName` (`result.ts`): the first word after `from` in the
lower-cased query, or `null`. -/
def extractTableName (query : String) : Option String :=
  (findFromTable false (query.data.map Char.toLower)).map String.mk

/-- Decode one cell (the inner closure of `parse`'s column loop): no
table name passes the value through; a fixed schema table uses the
fixed schema type table exclusively; any other table consults the
signature-derived rules first and falls back to the fixed schema table;
a rule found nowhere passes the value through. -/
def decodeCell (sigTypes : List (String × List (String × Rule)))
    (tableName : Option String) (name : String) (v : Value) : Except String Value :=
  match tableName with
  | none => .ok v
  | some t =>
    if standardTables.contains t then
      decodeWithRule (lookupKV standardColumnTypes name) v
    else
      decodeWithRule
        ((lookupKV sigTypes t >>= fun m => lookupKV m name) <|>
          lookupKV standardColumnTypes name) v

/-- One column descriptor of a raw payload. -/
structure RawColumn where
  name : String
  pgtype : String
deriving DecidableEq, Repr

/-- A raw payload (`Result.Raw`). -/
structure Raw where
  columns : List RawColumn
  cursor : String
  rows : List (List Value)
deriving DecidableEq, Repr

/-- A normalized result: the server cursor and the decoded records
(JavaScript objects as insertion-ordered association lists). -/
structure ParsedResult where
  cursor : String
  rows : List (List (String × Value))
deriving DecidableEq, Repr

/-- The inner `for (let j = 0; ...)` column loop of `parse`: resolve the
column's table (qualified occurrence in the query, else the `FROM`
table), decode `row_raw[j]` (`undefined` beyond the row's end), and
write the field. -/
def decodeCols (sigTypes : List (String × List (String × Rule))) (query : String)
    (src : Option String) (row_raw : List Value) :
    List RawColumn → Nat → List (String × Value) → Except String (List (String × Value))
  | [], _, row => .ok row
  | col :: cols, j, row =>
    match decodeCell sigTypes ((getColumnTableName col.name query) <|> src)
        col.name (row_raw.getD j (.prim .undef)) with
    | .error e => .error e
    | .ok dv => decodeCols sigTypes query src row_raw cols (j + 1) (insertKV row col.name dv)

/-- Model of `Result.parse` (`result.ts`): build the signature decode tables,
then decode every row in order; a decode failure aborts the whole
normalization. -/
def parse (raw : Raw) (query : String) (sigItems : List AbiItemShape) :
    Except String ParsedResult :=
  match exceptMap
      (fun row_raw =>
        decodeCols (buildSignatureTypes sigItems) query (extractTableName query)
          row_raw raw.columns 0 [])
      raw.rows with
  | .error e => .error e
  | .ok rows => .ok ⟨raw.cursor, rows⟩

/-! ## The retry loops of `live` and `fetch` (`IndexSupply.ts`)

Both loops are interpreted against an explicit script of environment
(network) behaviours, one entry per connection attempt.  The traces
record the parameters of every emitted `request` event, the yielded
items, the emitted `error` events, and how the call ended. -/

/-- One item yielded by `live`: a JSON-decoded result object.  The loop
never reads any of its fields (`yield item as never`); we record the
server cursor it carries, which is what C1 is about. -/
structure LiveItem where
  cursor : String
deriving DecidableEq, Repr

/-- One JSON payload decoded from a `data:` line: a tagged error object
`{error: 'client' | 'server', message}` or an array of result
batches. -/
inductive Payload
  | errorP (isServer : Bool) (message : String)
  | results (items : List LiveItem)
deriving DecidableEq, Repr

/-- One event observed while draining the SSE stream of one connection:
a decoded payload arrives; the external cancellation signal fires
(setting `shouldAbort` via the `'abort'` listener); or the read/decode
layer throws (`AbortError` after a cancellation, `SseError` of type
`client` on invalid JSON, a generic network error, ...). -/
inductive StreamEv
  | dataEv (p : Payload)
  | abortFires
  | failEv (e : JsError)
deriving DecidableEq, Repr

/-- The environment's behaviour for one `live` connection attempt:
`fetch` rejects because the signal is aborted (no network exchange,
`shouldAbort` set); `fetch` rejects with a non-abort error; a non-2xx
response; `response.body === null`; or a stream delivering the given
events (graceful end-of-stream if none of them throws). -/
inductive AttemptSpec
  | fetchAborted
  | fetchFail (e : JsError)
  | httpError (status : Nat) (message : String)
  | nullBody
  | streamEvs (evs : List StreamEv)
deriving DecidableEq, Repr

/-- Result of draining one connection's stream: the items yielded, the
final attempt counter, whether `shouldAbort` was set, and the error the
`for await` loop threw (`none` = graceful end). -/
structure StreamResult where
  yielded : List LiveItem
  count : Nat
  aborted : Bool
  thrown : Option JsError
deriving DecidableEq, Repr

/-- The `for await (const data of readStream(reader))` body of `live`:
an `{error}` payload throws an `SseError` of that type; any other
payload yields each of its items and then resets the attempt counter to
0 (`count = 0` runs even for an empty array). -/
def runStream : List StreamEv → Bool → Nat → StreamResult
  | [], ab, c => ⟨[], c, ab, none⟩
  | .dataEv (.errorP isServer msg) :: _, ab, c =>
    ⟨[], c, ab, some (.sseError (if isServer then .server else .client) msg)⟩
  | .dataEv (.results items) :: rest, ab, _ =>
    ⟨items ++ (runStream rest ab 0).yielded, (runStream rest ab 0).count,
      (runStream rest ab 0).aborted, (runStream rest ab 0).thrown⟩
  | .abortFires :: rest, _, c => runStream rest true c
  | .failEv e :: _, ab, c => ⟨[], c, ab, some e⟩

/-- Stream events that do not make the `for await` body throw. -/
def isNonThrowEv : StreamEv → Bool
  | .dataEv (.errorP _ _) => false
  | .failEv _ => false
  | _ => true

/-- Whether a decoded non-error payload (of any size, even an empty
batch array) is processed before the stream throws or ends. -/
def hadResultsPayload (evs : List StreamEv) : Bool :=
  (evs.takeWhile isNonThrowEv).any fun ev =>
    match ev with
    | .dataEv (.results _) => true
    | _ => false

/-- How a `live` or `fetch` call ended: the generator returned, an
error was thrown to the caller, or the script provided fewer attempts
than the loop consumed (underspecified environment). -/
inductive Outcome
  | returned
  | threw (e : JsError)
  | stuck
deriving DecidableEq, Repr

/-- The query-string parameters of one `live` request
(`cursor` only when truthy, `signatures` repeated, `query` always). -/
structure ReqParams where
  cursor : Option String
  signatures : List String
  query : String
deriving DecidableEq, Repr

/-- Options of a `live` call. -/
structure LiveOptions where
  cursor : Option Cursor := none
  signatures : Option (List String) := none
  query : String := ""
  retryCount : Nat := 50
deriving Repr

/-- The parameters carried by every request the `live` loop builds
(built inside the loop from the destructured — and never reassigned —
`options`). -/
def liveReqParams (opts : LiveOptions) : ReqParams :=
  ⟨liveCursorParam opts.cursor, opts.signatures.getD [], opts.query⟩

/-- Observable trace of one `live` call. -/
structure LiveTrace where
  requests : List ReqParams
  yielded : List LiveItem
  errorEvents : List JsError
  outcome : Outcome
deriving DecidableEq, Repr

/-- The `while (count < retryCount)` loop of `live`.  Each iteration
increments `count`, emits a `request` event, and runs the scripted
attempt; the `catch` first returns silently when `shouldAbort` is set,
otherwise emits an `error` event, rethrows non-retryable errors, and
after the backoff sleep continues with the next attempt (`count` as the
stream left it).  An exhausted loop throws the last captured error, or
a generic maximum-retries error. -/
def liveAttempts (rc : Nat) (rp : ReqParams) :
    List AttemptSpec → Nat → Option JsError → LiveTrace
  | [], count, lastError =>
    if count < rc then ⟨[], [], [], .stuck⟩
    else ⟨[], [], [], .threw (lastError.getD (.baseError "Maximum retry attempts reached"))⟩
  | spec :: rest, count, lastError =>
    if count < rc then
      match spec with
      | .fetchAborted => ⟨[rp], [], [], .returned⟩
      | .fetchFail e =>
        if shouldRetry e then
          let t := liveAttempts rc rp rest (count + 1) (some e)
          ⟨rp :: t.requests, t.yielded, e :: t.errorEvents, t.outcome⟩
        else ⟨[rp], [], [e], .threw e⟩
      | .httpError s m =>
        if shouldRetry (.fetchRequestError s m) then
          let t := liveAttempts rc rp rest (count + 1) (some (.fetchRequestError s m))
          ⟨rp :: t.requests, t.yielded, JsError.fetchRequestError s m :: t.errorEvents,
            t.outcome⟩
        else ⟨[rp], [], [.fetchRequestError s m], .threw (.fetchRequestError s m)⟩
      | .nullBody =>
        ⟨[rp], [], [.baseError "Response body is null"],
          .threw (.baseError "Response body is null")⟩
      | .streamEvs evs =>
        let r := runStream evs false (count + 1)
        match r.thrown with
        | none => ⟨[rp], r.yielded, [], .returned⟩
        | some e =>
          if r.aborted then ⟨[rp], r.yielded, [], .returned⟩
          else if shouldRetry e then
            let t := liveAttempts rc rp rest r.count (some e)
            ⟨rp :: t.requests, r.yielded ++ t.yielded, e :: t.errorEvents, t.outcome⟩
          else ⟨[rp], r.yielded, [e], .threw e⟩
    else ⟨[], [], [], .threw (lastError.getD (.baseError "Maximum retry attempts reached"))⟩

/-- A full `live` call: loop from `count = 0` with no captured error. -/
def liveRun (opts : LiveOptions) (script : List AttemptSpec) : LiveTrace :=
  liveAttempts opts.retryCount (liveReqParams opts) script 0 none

/-- The environment's behaviour for one `fetch` attempt: the exchange
throws (`AbortError` on cancellation — `fetch` installs no abort
listener, so the rejection propagates — or a network error); a non-2xx
response; a 2xx response whose JSON array is empty; or a 2xx response
delivering one raw payload, which is handed to `Result.parse`. -/
inductive FetchSpec
  | fetchFail (e : JsError)
  | httpError (status : Nat) (message : String)
  | okEmpty
  | okRaw (raw : Raw)
deriving Repr

/-- The JSON body of one `fetch` request
(`{cursor?, query, signatures?}`; `cursor` present iff supplied). -/
structure FetchBody where
  cursor : Option String
  query : String
  signatures : Option (List String)
deriving DecidableEq, Repr

/-- Options of a `fetch` call.  `sigItems` is `AbiItem.from` applied to
`signatures` (the external `ox` parser, outside the model), as consumed
by `Result.parse`. -/
structure FetchOptions where
  cursor : Option Cursor := none
  signatures : Option (List String) := none
  sigItems : List AbiItemShape := []
  query : String := ""
  retryCount : Nat := 5
deriving Repr

/-- The body carried by every request the `fetch` loop sends. -/
def fetchBody (opts : FetchOptions) : FetchBody :=
  ⟨fetchCursorField opts.cursor, opts.query, opts.signatures⟩

/-- How a `fetch` call ended. -/
inductive FetchOutcome
  | ok (r : ParsedResult)
  | threw (e : JsError)
  | stuck
deriving DecidableEq, Repr

/-- Observable trace of one `fetch` call. -/
structure FetchTrace where
  requests : List FetchBody
  errorEvents : List JsError
  outcome : FetchOutcome
deriving DecidableEq, Repr

/-- The `while (count < retryCount)` loop of `fetch`: on success return
`Result.parse` of the first payload; an empty payload array throws a
generic error; every caught error is emitted, rethrown if not
retryable, and otherwise retried after the backoff sleep. -/
def fetchAttempts (opts : FetchOptions) :
    List FetchSpec → Nat → Option JsError → FetchTrace
  | [], count, lastError =>
    if count < opts.retryCount then ⟨[], [], .stuck⟩
    else ⟨[], [], .threw (lastError.getD (.baseError "Maximum retry attempts reached"))⟩
  | spec :: rest, count, lastError =>
    if count < opts.retryCount then
      let handle : JsError → FetchTrace := fun e =>
        if shouldRetry e then
          let t := fetchAttempts opts rest (count + 1) (some e)
          ⟨fetchBody opts :: t.requests, e :: t.errorEvents, t.outcome⟩
        else ⟨[fetchBody opts], [e], .threw e⟩
      match spec with
      | .fetchFail e => handle e
      | .httpError s m => handle (.fetchRequestError s m)
      | .okEmpty => handle (.baseError "No results returned")
      | .okRaw raw =>
        match parse raw opts.query opts.sigItems with
        | .ok r => ⟨[fetchBody opts], [], .ok r⟩
        | .error msg => handle (.otherError "ZodError" msg)
    else ⟨[], [], .threw (lastError.getD (.baseError "Maximum retry attempts reached"))⟩

/-- A full `fetch` call. -/
def fetchRun (opts : FetchOptions) (script : List FetchSpec) : FetchTrace :=
  fetchAttempts opts script 0 none

/-! ## Supporting lemmas -/

theorem needBytes_pos (b : Nat) : 0 < needBytes b := by
  unfold needBytes
  split <;> [skip; split <;> [skip; split]] <;> omega

/-- Emitted groups accumulate on the left of the fold state. -/
theorem utf8_foldl_out (l : List Nat) (out : List G) (p : List Nat) :
    l.foldl utf8Step (out, p) =
      (out ++ (l.foldl utf8Step ([], p)).1, (l.foldl utf8Step ([], p)).2) := by
  induction l generalizing out p with
  | nil => simp
  | cons b l ih =>
    simp only [List.foldl_cons]
    rw [show utf8Step (out, p) b =
        (out ++ (utf8Step ([], p) b).1, (utf8Step ([], p) b).2) by
      unfold utf8Step
      simp only
      split <;> simp]
    rw [ih, ih (utf8Step ([], p) b).1 (utf8Step ([], p) b).2]
    simp

/-- Decoding a concatenation: the groups of `a` are emitted first, and
the carry-over of `a` feeds into `b`. -/
theorem utf8Push_append (pend a b : List Nat) :
    utf8Push pend (a ++ b) =
      ((utf8Push pend a).1 ++ (utf8Push (utf8Push pend a).2 b).1,
        (utf8Push (utf8Push pend a).2 b).2) := by
  unfold utf8Push
  rw [List.foldl_append, utf8_foldl_out b (a.foldl utf8Step ([], pend)).1]

theorem findSep_append (s t : Str) (i : Nat) (h : findSep s = some i) :
    findSep (s ++ t) = some i := by
  induction s generalizing i with
  | nil => simp [findSep] at h
  | cons g1 rest ih =>
    match rest with
    | [] => simp [findSep] at h
    | g2 :: rest' =>
      rw [findSep] at h
      rw [show (g1 :: g2 :: rest') ++ t = g1 :: g2 :: (rest' ++ t) from rfl, findSep]
      split at h <;> rename_i hsep
      · cases h
        simp [hsep]
      · rw [if_neg hsep]
        simp only [Option.map_eq_some'] at h
        obtain ⟨j, hj, rfl⟩ := h
        rw [show g2 :: (rest' ++ t) = (g2 :: rest') ++ t from rfl, ih j hj]
        rfl

theorem processAll_none (s : Str) (h : findSep s = none) :
    processAll s = ([], s) := by
  rw [processAll, h]

theorem processAll_some (s : Str) (i : Nat) (h : findSep s = some i) :
    processAll s =
      ((extractData (s.take i) ++ (processAll (s.drop (i + 2))).1),
        (processAll (s.drop (i + 2))).2) := by
  rw [processAll, h]

/-- Flushing a concatenation: all frames completed inside `s` are flushed
first; the retained remainder is prefixed onto `t`. -/
theorem processAll_append (s t : Str) :
    processAll (s ++ t) =
      ((processAll s).1 ++ (processAll ((processAll s).2 ++ t)).1,
        (processAll ((processAll s).2 ++ t)).2) := by
  suffices h : ∀ (n : Nat) (s t : Str), s.length ≤ n →
      processAll (s ++ t) =
        ((processAll s).1 ++ (processAll ((processAll s).2 ++ t)).1,
          (processAll ((processAll s).2 ++ t)).2) from h s.length s t le_rfl
  intro n
  induction n with
  | zero =>
    intro s t h
    have : s = [] := List.eq_nil_of_length_eq_zero (Nat.le_zero.mp h)
    subst this
    rw [processAll_none [] rfl]
    simp
  | succ n ih =>
    intro s t hlen
    match hs : findSep s with
    | none =>
      rw [processAll_none s hs]
      simp
    | some i =>
      have hle := findSep_le s i hs
      rw [processAll_some s i hs,
        processAll_some (s ++ t) i (findSep_append s t i hs)]
      have htake : (s ++ t).take i = s.take i :=
        List.take_append_of_le_length (by omega)
      have hdrop : (s ++ t).drop (i + 2) = s.drop (i + 2) ++ t :=
        List.drop_append_of_le_length hle
      rw [htake, hdrop,
        ih (s.drop (i + 2)) t
          (by simp only [List.length_drop]; omega)]
      simp

/-- Feeding `c₁` then `c₂` is the same as feeding `c₁ ++ c₂`. -/
theorem sseFeed_append (st : SseState) (c₁ c₂ : List Nat) :
    sseFeed st (c₁ ++ c₂) =
      ((sseFeed st c₁).1 ++ (sseFeed (sseFeed st c₁).2 c₂).1,
        (sseFeed (sseFeed st c₁).2 c₂).2) := by
  unfold sseFeed
  simp only
  rw [utf8Push_append st.pend c₁ c₂]
  rw [show st.buf ++ ((utf8Push st.pend c₁).1 ++
        (utf8Push (utf8Push st.pend c₁).2 c₂).1) =
      (st.buf ++ (utf8Push st.pend c₁).1) ++
        (utf8Push (utf8Push st.pend c₁).2 c₂).1
    from (List.append_assoc _ _ _).symm,
    processAll_append (st.buf ++ (utf8Push st.pend c₁).1)
      (utf8Push (utf8Push st.pend c₁).2 c₂).1]

/-- Running a nonempty chunk list equals running its concatenation as a
single chunk, from any state. -/
theorem sseRun_cons_join (cs : List (List Nat)) (st : SseState) (c : List Nat) :
    sseRun st (c :: cs) = sseRun st [c ++ cs.flatten] := by
  induction cs generalizing st c with
  | nil => simp [sseRun]
  | cons c₂ cs ih =>
    rw [sseRun, ih (sseFeed st c).2 c₂]
    simp only [List.flatten_cons, sseRun, List.append_nil]
    rw [sseFeed_append st c (c₂ ++ cs.flatten)]

/-- Runs compose over list append. -/
theorem sseRun_append (st : SseState) (cs ds : List (List Nat)) :
    sseRun st (cs ++ ds) =
      ((sseRun st cs).1 ++ (sseRun (sseRun st cs).2 ds).1,
        (sseRun (sseRun st cs).2 ds).2) := by
  induction cs generalizing st with
  | nil => simp [sseRun]
  | cons c cs ih =>
    simp only [List.cons_append, sseRun, List.append_eq]
    rw [ih (sseFeed st c).2]
    simp

/-- Splitting with `takeWhile`/`dropWhile` across an all-satisfying
prefix followed by a failing element. -/
theorem takeWhile_dropWhile_all_append {p : α → Bool} (l₁ : List α) (b : α) (t : List α)
    (h : l₁.all p = true) (hb : p b = false) :
    (l₁ ++ b :: t).takeWhile p = l₁ ∧ (l₁ ++ b :: t).dropWhile p = b :: t := by
  induction l₁ with
  | nil =>
    simp only [List.nil_append]
    rw [List.takeWhile_cons, List.dropWhile_cons, hb]
    simp
  | cons a l ih =>
    rw [List.all_cons, Bool.and_eq_true] at h
    simp only [List.cons_append]
    rw [List.takeWhile_cons, List.dropWhile_cons, h.1]
    simp only [if_true]
    exact ⟨by rw [(ih h.2).1], by rw [(ih h.2).2]⟩

/-- A character that is not a digit does not occur in an all-digit
list. -/
theorem not_mem_of_all_digit {ds : List Char} (h : ds.all Char.isDigit = true)
    {c : Char} (hc : c.isDigit = false) : c ∉ ds := by
  intro hm
  rw [List.all_eq_true] at h
  have h2 := h c hm
  rw [hc] at h2
  exact absurd h2 (by simp)

/-- The regex `/int(\d+)$/` on anything ending in `int` followed by a nonempty
digit string captures exactly that digit string. -/
theorem matchIntSize_append_int (pre ds : List Char)
    (hne : ds ≠ []) (hdig : ds.all Char.isDigit = true) :
    matchIntSize (pre ++ 'i' :: 'n' :: 't' :: ds) = some ds := by
  unfold matchIntSize
  have hrev : (pre ++ 'i' :: 'n' :: 't' :: ds).reverse =
      ds.reverse ++ 't' :: 'n' :: 'i' :: pre.reverse := by
    simp
  have hall : ds.reverse.all Char.isDigit = true := by
    rw [List.all_eq_true] at hdig ⊢
    intro c hc
    exact hdig c (List.mem_reverse.mp hc)
  have hsplit := takeWhile_dropWhile_all_append ds.reverse 't' ('n' :: 'i' :: pre.reverse)
    hall (by decide)
  rw [hrev]
  simp only [hsplit.1, hsplit.2]
  rw [if_neg (by simp [hne]), if_pos (by simp [List.isPrefixOf])]
  simp

/-- The regex `/int(\d+)$/` never matches a type ending in `]`. -/
theorem matchIntSize_rbracket (l : List Char) :
    matchIntSize (l ++ [']']) = none := by
  unfold matchIntSize
  simp [List.takeWhile_cons]

/-- Running `exceptMap` successfully: same length, elementwise images in
order, and every output comes from some input. -/
theorem exceptMap_ok_spec {f : α → Except ε β} (l : List α) (res : List β)
    (h : exceptMap f l = .ok res) :
    res.length = l.length ∧
    (∀ i (h1 : i < l.length) (h2 : i < res.length),
      f (l.get ⟨i, h1⟩) = .ok (res.get ⟨i, h2⟩)) ∧
    (∀ r ∈ res, ∃ a ∈ l, f a = .ok r) := by
  induction l generalizing res with
  | nil =>
    rw [exceptMap] at h
    cases h
    exact ⟨rfl, fun i h1 => absurd h1 (by simp), fun r hr => absurd hr (by simp)⟩
  | cons a as ih =>
    cases hfa : f a with
    | error e => simp [exceptMap, hfa] at h
    | ok b =>
      cases hm : exceptMap f as with
      | error e => simp [exceptMap, hfa, hm] at h
      | ok bs =>
        simp only [exceptMap, hfa, hm] at h
        cases h
        obtain ⟨hlen, hidx, hmem⟩ := ih bs hm
        refine ⟨by simp [hlen], ?_, ?_⟩
        · intro i h1 h2
          match i with
          | 0 => exact hfa
          | n + 1 =>
            exact hidx n (by simpa using h1) (by simpa using h2)
        · intro r hr
          rcases List.mem_cons.mp hr with h | h
          · exact ⟨a, List.mem_cons_self a as, h ▸ hfa⟩
          · obtain ⟨a', ha', hfa'⟩ := hmem r h
            exact ⟨a', List.mem_cons_of_mem a ha', hfa'⟩

/-- Keys after a JavaScript-object write: unchanged if the key existed,
appended otherwise. -/
theorem insertKV_keys (l : List (String × α)) (k : String) (v : α) :
    (insertKV l k v).map Prod.fst =
      if k ∈ l.map Prod.fst then l.map Prod.fst else l.map Prod.fst ++ [k] := by
  induction l with
  | nil => simp [insertKV]
  | cons p rest ih =>
    obtain ⟨k', v'⟩ := p
    by_cases hk : k' = k
    · subst hk
      simp [insertKV]
    · rw [insertKV, if_neg hk]
      have hne : ¬ k = k' := fun h => hk h.symm
      simp only [List.map_cons, List.mem_cons, hne, false_or]
      rw [ih]
      by_cases hin : k ∈ rest.map Prod.fst
      · simp [hin]
      · simp [hin]

/-- Membership in the keys after a write. -/
theorem mem_insertKV_keys (l : List (String × α)) (k : String) (v : α) (a : String) :
    a ∈ (insertKV l k v).map Prod.fst ↔ a ∈ l.map Prod.fst ∨ a = k := by
  rw [insertKV_keys]
  by_cases hin : k ∈ l.map Prod.fst
  · rw [if_pos hin]
    exact ⟨Or.inl, fun h => h.elim id (fun h => h ▸ hin)⟩
  · rw [if_neg hin]
    simp

/-- The column loop of `parse`, on success: the record's keys extend the
accumulator's by a subsequence of the column names, and consist exactly
of the accumulator's keys and the column names. -/
theorem decodeCols_keys (sig : List (String × List (String × Rule))) (q : String)
    (src : Option String) (rr : List Value) :
    ∀ (cols : List RawColumn) (j : Nat) (row out : List (String × Value)),
      decodeCols sig q src rr cols j row = .ok out →
      (∃ extra, out.map Prod.fst = row.map Prod.fst ++ extra ∧
        extra.Sublist (cols.map RawColumn.name)) ∧
      (∀ a, a ∈ out.map Prod.fst ↔ a ∈ row.map Prod.fst ∨ a ∈ cols.map RawColumn.name) := by
  intro cols
  induction cols with
  | nil =>
    intro j row out h
    rw [decodeCols] at h
    cases h
    exact ⟨⟨[], by simp, by simp⟩, by simp⟩
  | cons col cols ih =>
    intro j row out h
    rw [decodeCols] at h
    cases hdc : decodeCell sig ((getColumnTableName col.name q) <|> src)
        col.name (rr.getD j (.prim .undef)) with
    | error e =>
      rw [hdc] at h
      simp at h
    | ok dv =>
      rw [hdc] at h
      dsimp only at h
      obtain ⟨⟨extra, hkeys, hsub⟩, hmem⟩ := ih (j + 1) (insertKV row col.name dv) out h
      constructor
      · by_cases hin : col.name ∈ row.map Prod.fst
        · refine ⟨extra, ?_, hsub.cons col.name⟩
          rw [hkeys, insertKV_keys, if_pos hin]
        · refine ⟨col.name :: extra, ?_, hsub.cons₂ col.name⟩
          rw [hkeys, insertKV_keys, if_neg hin]
          simp
      · intro a
        rw [hmem a, mem_insertKV_keys]
        simp only [List.map_cons, List.mem_cons]
        tauto

/-- Unfolding equation of `runStream` on a batch payload. -/
theorem runStream_results_cons (items : List LiveItem) (rest : List StreamEv)
    (ab : Bool) (c : Nat) :
    runStream (.dataEv (.results items) :: rest) ab c =
      ⟨items ++ (runStream rest ab 0).yielded, (runStream rest ab 0).count,
        (runStream rest ab 0).aborted, (runStream rest ab 0).thrown⟩ := rfl

/-- Every request record a `live` loop produces is the fixed `rp`. -/
theorem liveAttempts_requests_const (rc : Nat) (rp : ReqParams) :
    ∀ (script : List AttemptSpec) (count : Nat) (le : Option JsError),
      (liveAttempts rc rp script count le).requests =
        List.replicate (liveAttempts rc rp script count le).requests.length rp := by
  intro script
  induction script with
  | nil =>
    intro count le
    rw [liveAttempts]
    split <;> rfl
  | cons spec rest ih =>
    intro count le
    cases spec with
    | fetchAborted =>
      rw [liveAttempts.eq_def]
      dsimp only
      split <;> rfl
    | fetchFail e =>
      rw [liveAttempts.eq_def]
      dsimp only
      by_cases hc : count < rc
      · rw [if_pos hc]
        by_cases h : shouldRetry e = true
        · rw [if_pos h]
          dsimp only
          rw [ih (count + 1) (some e)]
          simp [List.replicate_succ]
        · rw [if_neg h]
          rfl
      · rw [if_neg hc]
        rfl
    | httpError s m =>
      rw [liveAttempts.eq_def]
      dsimp only
      by_cases hc : count < rc
      · rw [if_pos hc]
        by_cases h : shouldRetry (.fetchRequestError s m) = true
        · rw [if_pos h]
          dsimp only
          rw [ih (count + 1) (some (.fetchRequestError s m))]
          simp [List.replicate_succ]
        · rw [if_neg h]
          rfl
      · rw [if_neg hc]
        rfl
    | nullBody =>
      rw [liveAttempts.eq_def]
      dsimp only
      split <;> rfl
    | streamEvs evs =>
      rw [liveAttempts.eq_def]
      dsimp only
      by_cases hc : count < rc
      · rw [if_pos hc]
        cases hr : (runStream evs false (count + 1)).thrown with
        | none => rfl
        | some e =>
          dsimp only
          by_cases hab : (runStream evs false (count + 1)).aborted = true
          · rw [if_pos hab]
            rfl
          · rw [if_neg hab]
            by_cases h : shouldRetry e = true
            · rw [if_pos h]
              dsimp only
              rw [ih ((runStream evs false (count + 1)).count) (some e)]
              simp [List.replicate_succ]
            · rw [if_neg h]
              rfl
      · rw [if_neg hc]
        rfl

/-- Draining a stream that delivers some batches, then sees the abort
signal fire, then fails: everything delivered is yielded, the abort
flag is set, and the failure is recorded. -/
theorem runStream_batches_then_abort (c : Nat) (pre : List (List LiveItem)) (e : JsError)
    (ab : Bool) :
    runStream
        (pre.map (fun items => StreamEv.dataEv (.results items)) ++
          [.abortFires, .failEv e]) ab c =
      ⟨pre.flatten, if pre.isEmpty then c else 0, true, some e⟩ := by
  induction pre generalizing ab c with
  | nil => rfl
  | cons items pre ih =>
    rw [List.map_cons, List.cons_append, runStream_results_cons, ih]
    simp

/-! ## The claims -/

/-- C2 (amended): `shouldRetry e` is `true` iff `e` is a stream protocol
error classified `server`, or a request error whose HTTP status is 408,
429 or `≥ 500` (the code imposes no upper bound on the status); every
other error — cancellation, decode errors, `client`-classified stream
errors, generic errors — is terminal. -/
theorem shouldRetry_iff (e : JsError) :
    shouldRetry e = true ↔
      (∃ msg, e = .sseError .server msg) ∨
      (∃ s msg, e = .fetchRequestError s msg ∧ (s = 408 ∨ s = 429 ∨ 500 ≤ s)) := by
  cases e with
  | sseError t msg =>
    cases t <;> simp [shouldRetry]
  | fetchRequestError s msg =>
    simp [shouldRetry]
    omega
  | baseError msg => simp [shouldRetry]
  | abortError => simp [shouldRetry]
  | otherError n msg => simp [shouldRetry]

/-- C2 counterexample: a request error with HTTP status 600 is retried by
the code (`error.status >= 500` has no upper bound), while the claim's
condition `status ∈ {408, 429} ∪ [500, 599]` excludes it. -/
theorem shouldRetry_600_counterexample :
    shouldRetry (.fetchRequestError 600 "upstream") = true ∧
      ¬(600 = 408 ∨ 600 = 429 ∨ (500 ≤ 600 ∧ 600 ≤ 599)) := by
  decide

/-- C3: the SSE frame decoder is chunk-boundary-insensitive — feeding any
list of byte chunks through `readStream`'s buffered decode loop yields
the same payload-string sequence (and the same final decoder state) as
feeding their concatenation as one single chunk.  The `JSON.parse`
applied to each yielded payload string is a pure per-string function, so
equal payload-string sequences give equal decoded JSON sequences (and
identical decode-failure points). -/
theorem readStream_chunk_insensitive (chunks : List (List Nat)) :
    sseRun ⟨[], []⟩ chunks = sseRun ⟨[], []⟩ [chunks.flatten] := by
  cases chunks with
  | nil =>
    simp [sseRun, sseFeed, utf8Push, processAll_none [] rfl]
  | cons c cs => exact sseRun_cons_join cs ⟨[], []⟩ c

/-- C9: bytes after the last complete `"\n\n"` frame separator are
silently discarded at end-of-stream: appending one final chunk that
completes no frame (its text, prefixed with the retained partial frame,
contains no `"\n\n"` — even if it contains a complete `data:` line)
leaves the decoder's yielded payload sequence unchanged, and raises no
error. -/
theorem readStream_discards_trailing_partial_frame
    (cs : List (List Nat)) (t : List Nat)
    (h : findSep ((sseRun ⟨[], []⟩ cs).2.buf ++
        (utf8Push (sseRun ⟨[], []⟩ cs).2.pend t).1) = none) :
    (sseRun ⟨[], []⟩ (cs ++ [t])).1 = (sseRun ⟨[], []⟩ cs).1 := by
  rw [sseRun_append]
  simp only [sseRun, List.append_nil, sseFeed]
  rw [processAll_none _ h]
  simp

/-- C9 witness: after one chunk carrying the complete frame
`"data: 1\n\n"`, a trailing chunk `"data: 2\n"` — a complete `data:`
line, but no frame separator — is discarded: the decoder still yields
exactly the payload `"1"`. -/
theorem readStream_discards_trailing_partial_frame_witness :
    (sseRun ⟨[], []⟩ [[100, 97, 116, 97, 58, 32, 49, 10, 10]]).1 = [[[49]]] ∧
      (sseRun ⟨[], []⟩ ([[100, 97, 116, 97, 58, 32, 49, 10, 10]] ++
          [[100, 97, 116, 97, 58, 32, 50, 10]])).1 =
        (sseRun ⟨[], []⟩ [[100, 97, 116, 97, 58, 32, 49, 10, 10]]).1 := by
  have hg : utf8Push [] [100, 97, 116, 97, 58, 32, 49, 10, 10] =
      ([[100], [97], [116], [97], [58], [32], [49], [10], [10]], []) := by decide
  have hd : ([[100], [97], [116], [97], [58], [32], [49], [10], [10]] : Str).drop (7 + 2)
      = [] := by decide
  have hp : processAll [[100], [97], [116], [97], [58], [32], [49], [10], [10]] =
      ([[[49]]], []) := by
    rw [processAll_some _ 7 (by decide), hd, processAll_none [] rfl]
    decide
  have hrun : sseRun ⟨[], []⟩ [[100, 97, 116, 97, 58, 32, 49, 10, 10]] =
      ([[[49]]], ⟨[], []⟩) := by
    simp [sseRun, sseFeed, hg, hp]
  refine ⟨by rw [hrun], ?_⟩
  apply readStream_discards_trailing_partial_frame
  rw [hrun]
  decide

/-- C1 (amended): every connection a `live` invocation opens — the
first one and every reconnection after a retryable failure — carries
exactly the parameters built from the caller-supplied options: in
particular, the `cursor` query parameter is always the serialized
original caller-supplied cursor (or absent when that cursor is falsy).
The cursor observed in yielded batches is never used, and the client
never locally recomputes positions (`cursor` is destructured `const`
and never reassigned). -/
theorem live_requests_carry_original_cursor (opts : LiveOptions) (script : List AttemptSpec) :
    (liveRun opts script).requests =
      List.replicate (liveRun opts script).requests.length (liveReqParams opts) :=
  liveAttempts_requests_const opts.retryCount (liveReqParams opts) script 0 none

/-- C1 counterexample: a caller starts `live` with cursor `"A"`; the
stream yields one batch carrying server cursor `"B"` and then fails
with a retryable `server` SSE error; the reopened connection's request
carries `cursor = "A"` — the original caller-supplied cursor — not the
most recently observed `"B"` as the claim states. -/
theorem live_reconnect_cursor_counterexample :
    (liveRun { cursor := some (.str "A"), query := "q" }
        [.streamEvs [.dataEv (.results [⟨"B"⟩]), .dataEv (.errorP true "boom")],
          .streamEvs []]).yielded = [⟨"B"⟩] ∧
    (liveRun { cursor := some (.str "A"), query := "q" }
        [.streamEvs [.dataEv (.results [⟨"B"⟩]), .dataEv (.errorP true "boom")],
          .streamEvs []]).requests.map ReqParams.cursor = [some "A", some "A"] ∧
    ¬ ((liveRun { cursor := some (.str "A"), query := "q" }
        [.streamEvs [.dataEv (.results [⟨"B"⟩]), .dataEv (.errorP true "boom")],
          .streamEvs []]).requests.map ReqParams.cursor)[1]? = some (some "B") := by
  decide

/-- C4 (amended): within one `live` connection, the retry attempt
counter is reset to 0 exactly when at least one non-error payload is
successfully decoded before the stream throws or ends — including a
payload that is an empty batch array and therefore yields no record
(`count = 0` runs after the per-item `yield` loop regardless of whether
that loop yielded anything); otherwise the counter is unchanged. -/
theorem runStream_count_reset (ab : Bool) (c : Nat) (evs : List StreamEv) :
    (runStream evs ab c).count = if hadResultsPayload evs then 0 else c := by
  induction evs generalizing ab c with
  | nil => simp [runStream, hadResultsPayload]
  | cons ev rest ih =>
    match ev with
    | .dataEv (.errorP isServer msg) =>
      simp [runStream, hadResultsPayload, List.takeWhile, isNonThrowEv]
    | .dataEv (.results items) =>
      simp only [runStream, ih, hadResultsPayload, List.takeWhile, isNonThrowEv, List.any_cons]
      simp
    | .abortFires =>
      simp only [runStream, ih, hadResultsPayload, List.takeWhile, isNonThrowEv, List.any_cons]
      simp
    | .failEv e =>
      simp [runStream, hadResultsPayload, List.takeWhile, isNonThrowEv]

/-- C4 counterexample: with `retryCount = 2`, a session whose
connections each decode one *empty* batch array (yielding no record)
before a retryable failure makes three connection attempts and returns
— possible only because the empty payloads reset the counter; the
contrast run without the empty payloads exhausts the two attempts and
throws.  Under the claim (reset only after yielding a record) both runs
would behave identically, since neither yields anything. -/
theorem live_count_reset_counterexample :
    ((liveRun { query := "q", retryCount := 2 }
        [.streamEvs [.dataEv (.results []), .dataEv (.errorP true "e1")],
          .streamEvs [.dataEv (.results []), .dataEv (.errorP true "e2")],
          .streamEvs []]).requests.length = 3 ∧
      (liveRun { query := "q", retryCount := 2 }
        [.streamEvs [.dataEv (.results []), .dataEv (.errorP true "e1")],
          .streamEvs [.dataEv (.results []), .dataEv (.errorP true "e2")],
          .streamEvs []]).yielded = [] ∧
      (liveRun { query := "q", retryCount := 2 }
        [.streamEvs [.dataEv (.results []), .dataEv (.errorP true "e1")],
          .streamEvs [.dataEv (.results []), .dataEv (.errorP true "e2")],
          .streamEvs []]).outcome = .returned) ∧
    ((liveRun { query := "q", retryCount := 2 }
        [.streamEvs [.dataEv (.errorP true "e1")],
          .streamEvs [.dataEv (.errorP true "e2")],
          .streamEvs []]).requests.length = 2 ∧
      (liveRun { query := "q", retryCount := 2 }
        [.streamEvs [.dataEv (.errorP true "e1")],
          .streamEvs [.dataEv (.errorP true "e2")],
          .streamEvs []]).yielded = [] ∧
      (liveRun { query := "q", retryCount := 2 }
        [.streamEvs [.dataEv (.errorP true "e1")],
          .streamEvs [.dataEv (.errorP true "e2")],
          .streamEvs []]).outcome = .threw (.sseError .server "e2")) := by
  decide

/-- C5 (amended): for signature-derived `int*`/`uint*` columns, the
width rule applies only to non-array types: a declared width `≤ 48`
selects the 64-bit-safe `Number` coercion and a width `> 48` (or an
unspecified width) the arbitrary-precision `BigInt` coercion; an
array-typed `int*`/`uint*` column always coerces each element with
`BigInt`, whatever the declared width, because the size regex
`/int(\d+)$/` is end-anchored and never matches a type ending in
`[]`. -/
theorem signature_int_width_rule (ds : List Char)
    (hne : ds ≠ []) (hdig : ds.all Char.isDigit = true) :
    (digitsToNat ds ≤ 48 →
      signatureTransformL ('u' :: 'i' :: 'n' :: 't' :: ds) = .base .jsNumberOf ∧
      signatureTransformL ('i' :: 'n' :: 't' :: ds) = .base .jsNumberOf) ∧
    (48 < digitsToNat ds →
      signatureTransformL ('u' :: 'i' :: 'n' :: 't' :: ds) = .base .bigIntOf ∧
      signatureTransformL ('i' :: 'n' :: 't' :: ds) = .base .bigIntOf) ∧
    (signatureTransformL ('u' :: 'i' :: 'n' :: 't' :: (ds ++ ['[', ']'])) =
        .arrayOf .bigIntOf ∧
      signatureTransformL ('i' :: 'n' :: 't' :: (ds ++ ['[', ']'])) =
        .arrayOf .bigIntOf) ∧
    signatureTransform "uint" = .base .bigIntOf ∧
    signatureTransform "int" = .base .bigIntOf := by
  have hm_u : matchIntSize ('u' :: 'i' :: 'n' :: 't' :: ds) = some ds :=
    matchIntSize_append_int ['u'] ds hne hdig
  have hm_i : matchIntSize ('i' :: 'n' :: 't' :: ds) = some ds :=
    matchIntSize_append_int [] ds hne hdig
  have hm_ua : matchIntSize ('u' :: 'i' :: 'n' :: 't' :: (ds ++ ['[', ']'])) = none := by
    have : ('u' :: 'i' :: 'n' :: 't' :: (ds ++ ['[', ']'])) =
        (('u' :: 'i' :: 'n' :: 't' :: ds) ++ ['[']) ++ [']'] := by simp
    rw [this, matchIntSize_rbracket]
  have hm_ia : matchIntSize ('i' :: 'n' :: 't' :: (ds ++ ['[', ']'])) = none := by
    have : ('i' :: 'n' :: 't' :: (ds ++ ['[', ']'])) =
        (('i' :: 'n' :: 't' :: ds) ++ ['[']) ++ [']'] := by simp
    rw [this, matchIntSize_rbracket]
  have hnb : ('[' : Char) ∉ ds := not_mem_of_all_digit hdig (by decide)
  refine ⟨fun h48 => ⟨?_, ?_⟩, fun h48 => ⟨?_, ?_⟩, ⟨?_, ?_⟩, by decide, by decide⟩
  · simp [signatureTransformL, List.isPrefixOf, hm_u, hnb, h48]
  · simp [signatureTransformL, List.isPrefixOf, hm_i, hnb, h48]
  · simp [signatureTransformL, List.isPrefixOf, hm_u, hnb,
      (by omega : ¬ digitsToNat ds ≤ 48)]
    omega
  · simp [signatureTransformL, List.isPrefixOf, hm_i, hnb,
      (by omega : ¬ digitsToNat ds ≤ 48)]
    omega
  · simp [signatureTransformL, List.isPrefixOf, hm_ua]
  · simp [signatureTransformL, List.isPrefixOf, hm_ia]

/-- C5 witness: the amended width rule at widths 8 (`≤ 48`) and 256
(`> 48`). -/
theorem signature_int_width_rule_witness :
    (['8'] ≠ ([] : List Char) ∧ (['8'].all Char.isDigit) = true ∧
      signatureTransformL ('u' :: 'i' :: 'n' :: 't' :: ['8']) = .base .jsNumberOf ∧
      signatureTransformL ('u' :: 'i' :: 'n' :: 't' :: (['8'] ++ ['[', ']'])) =
        .arrayOf .bigIntOf) ∧
    (['2', '5', '6'] ≠ ([] : List Char) ∧ (['2', '5', '6'].all Char.isDigit) = true ∧
      signatureTransformL ('u' :: 'i' :: 'n' :: 't' :: ['2', '5', '6']) = .base .bigIntOf) :=
  ⟨⟨by decide, by decide,
      ((signature_int_width_rule ['8'] (by decide) (by decide)).1 (by decide)).1,
      ((signature_int_width_rule ['8'] (by decide) (by decide)).2.2.1).1⟩,
    ⟨by decide, by decide,
      ((signature_int_width_rule ['2', '5', '6'] (by decide) (by decide)).2.1
        (by decide)).1⟩⟩

/-- C5 counterexample: for declared type `uint8[]` the code selects the
arbitrary-precision element coercion (`/int(\d+)$/` fails on the
trailing `[]`, so the width is treated as unspecified), while the claim
says `uint8[]` elements become 64-bit-safe integers; the non-array
`uint8` does get the 64-bit-safe rule. -/
theorem signature_uint8_array_counterexample :
    signatureTransform "uint8[]" = .arrayOf .bigIntOf ∧
      signatureTransform "uint8[]" ≠ .arrayOf .jsNumberOf ∧
      signatureTransform "uint8" = .base .jsNumberOf := by
  decide

/-- C6: type resolution precedence in `Result.parse`: (i) for a column
whose resolved table is one of the three fixed schema tables, the fixed
schema type table is used exclusively — the decode result is
independent of the signature table; (ii) for any other table, a rule
found in the signature-derived table for that table wins; (iii) absent
there, the fixed schema table is the fallback; (iv) absent from both,
the value passes through unmodified. -/
theorem decodeCell_precedence :
    (∀ (sig sig' : List (String × List (String × Rule))) (t name : String) (v : Value),
      standardTables.contains t = true →
        decodeCell sig (some t) name v = decodeCell sig' (some t) name v ∧
        decodeCell sig (some t) name v =
          decodeWithRule (lookupKV standardColumnTypes name) v) ∧
    (∀ (sig : List (String × List (String × Rule))) (t name : String) (v : Value) (r : Rule),
      standardTables.contains t = false →
      (lookupKV sig t >>= fun m => lookupKV m name) = some r →
        decodeCell sig (some t) name v = applyRule r v) ∧
    (∀ (sig : List (String × List (String × Rule))) (t name : String) (v : Value),
      standardTables.contains t = false →
      (lookupKV sig t >>= fun m => lookupKV m name) = none →
        decodeCell sig (some t) name v =
          decodeWithRule (lookupKV standardColumnTypes name) v) ∧
    (∀ (sig : List (String × List (String × Rule))) (t name : String) (v : Value),
      standardTables.contains t = false →
      (lookupKV sig t >>= fun m => lookupKV m name) = none →
      lookupKV standardColumnTypes name = none →
        decodeCell sig (some t) name v = .ok v) := by
  refine ⟨?_, ?_, ?_, ?_⟩
  · intro sig sig' t name v h
    have h' : t ∈ standardTables := by simpa using h
    exact ⟨by simp [decodeCell, h'], by simp [decodeCell, h']⟩
  · intro sig t name v r h h2
    have h' : t ∉ standardTables := by simpa using h
    simp [decodeCell, h', h2, decodeWithRule]
  · intro sig t name v h h2
    have h' : t ∉ standardTables := by simpa using h
    simp [decodeCell, h', h2]
  · intro sig t name v h h2 h3
    have h' : t ∉ standardTables := by simpa using h
    simp [decodeCell, h', h2, h3, decodeWithRule]

/-- C6 witness: the four precedence facts at concrete inputs — a fixed
table (`txs`) ignoring a signature table that would coerce differently;
a signature table winning for its own table (`transfer`); fallback to
the fixed schema table for a column (`num`) absent from the signature
table; passthrough for a column (`zzz`) absent from both. -/
theorem decodeCell_precedence_witness :
    (standardTables.contains "txs" = true ∧
      decodeCell [("transfer", [("value", Rule.base .bigIntOf)])] (some "txs") "value"
          (.prim (.str "5")) =
        decodeCell [] (some "txs") "value" (.prim (.str "5"))) ∧
    (standardTables.contains "transfer" = false ∧
      (lookupKV [("transfer", [("value", Rule.base .bigIntOf)])] "transfer" >>=
          fun m => lookupKV m "value") = some (Rule.base .bigIntOf) ∧
      decodeCell [("transfer", [("value", Rule.base .bigIntOf)])] (some "transfer") "value"
          (.prim (.str "5")) =
        applyRule (.base .bigIntOf) (.prim (.str "5"))) ∧
    (decodeCell [("transfer", [("value", Rule.base .bigIntOf)])] (some "transfer") "num"
        (.prim (.big 3)) =
      decodeWithRule (lookupKV standardColumnTypes "num") (.prim (.big 3))) ∧
    (decodeCell [("transfer", [("value", Rule.base .bigIntOf)])] (some "transfer") "zzz"
        (.prim (.str "x")) = .ok (.prim (.str "x"))) :=
  ⟨⟨by decide,
      (decodeCell_precedence.1 [("transfer", [("value", Rule.base .bigIntOf)])] []
        "txs" "value" (.prim (.str "5")) (by decide)).1⟩,
    ⟨by decide, by decide,
      decodeCell_precedence.2.1 [("transfer", [("value", Rule.base .bigIntOf)])]
        "transfer" "value" (.prim (.str "5")) (Rule.base .bigIntOf) (by decide) (by decide)⟩,
    decodeCell_precedence.2.2.1 [("transfer", [("value", Rule.base .bigIntOf)])]
      "transfer" "num" (.prim (.big 3)) (by decide) (by decide),
    decodeCell_precedence.2.2.2 [("transfer", [("value", Rule.base .bigIntOf)])]
      "transfer" "zzz" (.prim (.str "x")) (by decide) (by decide) (by decide)⟩

/-- C7: on every successful normalization, `parse` preserves the row
count, processes rows independently in input order (the `i`-th output
record is the decode of the `i`-th input row), and each record's keys
appear in `raw.columns` order: they form a subsequence of the column
names (duplicate column names collapse onto the first occurrence) and
cover every column name. -/
theorem parse_preserves_shape (raw : Raw) (query : String)
    (sigItems : List AbiItemShape) (res : ParsedResult)
    (h : parse raw query sigItems = .ok res) :
    res.rows.length = raw.rows.length ∧
    (∀ i (h1 : i < raw.rows.length) (h2 : i < res.rows.length),
      decodeCols (buildSignatureTypes sigItems) query (extractTableName query)
        (raw.rows.get ⟨i, h1⟩) raw.columns 0 [] = .ok (res.rows.get ⟨i, h2⟩)) ∧
    (∀ r ∈ res.rows,
      (r.map Prod.fst).Sublist (raw.columns.map RawColumn.name) ∧
      ∀ c ∈ raw.columns, c.name ∈ r.map Prod.fst) := by
  cases hm : exceptMap
      (fun row_raw =>
        decodeCols (buildSignatureTypes sigItems) query (extractTableName query)
          row_raw raw.columns 0 [])
      raw.rows with
  | error e => simp [parse, hm] at h
  | ok rows =>
    simp only [parse, hm] at h
    cases h
    obtain ⟨hlen, hidx, hmem⟩ := exceptMap_ok_spec _ rows hm
    refine ⟨hlen, hidx, ?_⟩
    intro r hr
    obtain ⟨a, _, hok⟩ := hmem r hr
    obtain ⟨⟨extra, hkeys, hsub⟩, hmemk⟩ :=
      decodeCols_keys (buildSignatureTypes sigItems) query (extractTableName query)
        a raw.columns 0 [] r hok
    refine ⟨?_, ?_⟩
    · rw [hkeys]
      simpa using hsub
    · intro c hc
      rw [hmemk c.name]
      exact Or.inr (List.mem_map_of_mem RawColumn.name hc)

/-- C7 witness: a two-row payload over a custom `transfer` table with a
`uint256` signature column decodes with both rows preserved in order
and record keys in column order. -/
theorem parse_preserves_shape_witness :
    parse
        ⟨[⟨"from", "text"⟩, ⟨"value", "numeric"⟩], "8453-1",
          [[.prim (.str "0xaa"), .prim (.str "7")],
            [.prim (.str "0xbb"), .prim (.str "9")]]⟩
        "select \"from\", value from transfer"
        [⟨some "Transfer", [⟨"from", "address"⟩, ⟨"value", "uint256"⟩]⟩] =
      .ok ⟨"8453-1",
        [[("from", .prim (.str "0xaa")), ("value", .prim (.big 7))],
          [("from", .prim (.str "0xbb")), ("value", .prim (.big 9))]]⟩ ∧
    ((⟨"8453-1",
        [[("from", .prim (.str "0xaa")), ("value", .prim (.big 7))],
          [("from", .prim (.str "0xbb")), ("value", .prim (.big 9))]]⟩ :
        ParsedResult).rows.length =
      (⟨[⟨"from", "text"⟩, ⟨"value", "numeric"⟩], "8453-1",
          [[.prim (.str "0xaa"), .prim (.str "7")],
            [.prim (.str "0xbb"), .prim (.str "9")]]⟩ : Raw).rows.length ∧
      (∀ r ∈ (⟨"8453-1",
          [[("from", .prim (.str "0xaa")), ("value", .prim (.big 7))],
            [("from", .prim (.str "0xbb")), ("value", .prim (.big 9))]]⟩ :
          ParsedResult).rows,
        (r.map Prod.fst).Sublist
          ((⟨[⟨"from", "text"⟩, ⟨"value", "numeric"⟩], "8453-1",
            [[.prim (.str "0xaa"), .prim (.str "7")],
              [.prim (.str "0xbb"), .prim (.str "9")]]⟩ : Raw).columns.map
            RawColumn.name))) := by
  have hp : parse
      ⟨[⟨"from", "text"⟩, ⟨"value", "numeric"⟩], "8453-1",
        [[.prim (.str "0xaa"), .prim (.str "7")],
          [.prim (.str "0xbb"), .prim (.str "9")]]⟩
      "select \"from\", value from transfer"
      [⟨some "Transfer", [⟨"from", "address"⟩, ⟨"value", "uint256"⟩]⟩] =
    .ok ⟨"8453-1",
      [[("from", .prim (.str "0xaa")), ("value", .prim (.big 7))],
        [("from", .prim (.str "0xbb")), ("value", .prim (.big 9))]]⟩ := by rfl
  have hspec := parse_preserves_shape _ _ _ _ hp
  exact ⟨hp, hspec.1, fun r hr => (hspec.2.2 r hr).1⟩

/-- C8: cancellation semantics.  For `live`: (a) an abort observed
while awaiting the (re)connection `fetch` — e.g. a signal that fired
during the backoff sleep — ends the generator silently: one request
record (the pre-aborted `fetch` performs no network exchange), nothing
yielded, no `error` event, outcome `returned`, and the rest of the
script is never consumed (no further network attempts); (b) an abort
that fires mid-stream and makes the pending read reject likewise ends
the generator silently after everything already delivered has been
yielded, whatever error the read rejected with.  For `fetch`: the same
`AbortError` is surfaced to the caller as a thrown error. -/
theorem cancellation_silent_for_live_raises_for_fetch :
    (∀ (c : Option Cursor) (sg : Option (List String)) (q : String) (rc : Nat)
        (rest : List AttemptSpec),
      liveRun ⟨c, sg, q, rc + 1⟩ (.fetchAborted :: rest) =
        ⟨[liveReqParams ⟨c, sg, q, rc + 1⟩], [], [], .returned⟩) ∧
    (∀ (c : Option Cursor) (sg : Option (List String)) (q : String) (rc : Nat)
        (pre : List (List LiveItem)) (e : JsError) (rest : List AttemptSpec),
      liveRun ⟨c, sg, q, rc + 1⟩
          (.streamEvs (pre.map (fun items => StreamEv.dataEv (.results items)) ++
            [.abortFires, .failEv e]) :: rest) =
        ⟨[liveReqParams ⟨c, sg, q, rc + 1⟩], pre.flatten, [], .returned⟩) ∧
    (∀ (c : Option Cursor) (sg : Option (List String)) (sit : List AbiItemShape)
        (q : String) (rc : Nat) (rest : List FetchSpec),
      (fetchRun ⟨c, sg, sit, q, rc + 1⟩ (.fetchFail .abortError :: rest)).outcome =
        .threw .abortError) := by
  refine ⟨?_, ?_, ?_⟩
  · intro c sg q rc rest
    rw [liveRun, liveAttempts]
    simp
  · intro c sg q rc pre e rest
    rw [liveRun, liveAttempts]
    simp only [Nat.zero_lt_succ, if_true]
    rw [runStream_batches_then_abort]
    rfl
  · intro c sg sit q rc rest
    rw [fetchRun, fetchAttempts]
    simp [shouldRetry]

/-- C10: presence of the cursor in outbound requests.  `fetch` checks
`cursor !== undefined`, so a supplied empty-string cursor is sent as
`cursor: ""` in the request body; `live` checks truthiness
(`if (cursor)`), so an empty-string cursor omits the `cursor`
query-string parameter entirely; an unsupplied cursor is omitted by
both. -/
theorem cursor_presence_empty_string_vs_undefined :
    fetchCursorField (some (.str "")) = some "" ∧
    liveCursorParam (some (.str "")) = none ∧
    fetchCursorField none = none ∧
    liveCursorParam none = none ∧
    (∀ (sg : Option (List String)) (sit : List AbiItemShape) (q : String) (rc : Nat),
      (fetchBody ⟨some (.str ""), sg, sit, q, rc⟩).cursor = some "") ∧
    (∀ (sg : Option (List String)) (q : String) (rc : Nat),
      (liveReqParams ⟨some (.str ""), sg, q, rc⟩).cursor = none) := by
  refine ⟨rfl, rfl, rfl, rfl, fun sg sit q rc => rfl, fun sg q rc => rfl⟩

end Idxs
